import Mathlib

/-!
Verification of the content-pipeline web scraper
(`src/content_pipeline/scrapers/scraper.py`, class `WebScraper`).

Python strings are modelled as `List Char` (`Text` below).  The
BeautifulSoup-parsed HTML document is modelled abstractly by a `Soup`
record holding exactly the information the extractor queries from the
parse tree: the paywall-indicator hit, the article-card count, the
`select_one` result for each content selector (as the list of stripped
text segments that `get_text('\n', strip=True)` would join), the
`article.post` fallback element, the paragraph texts and the generic
container texts.  Rationals stand in for Python floats: every constant
in the scoring code is an exact decimal, and all claims are about the
exact decimal arithmetic the spec states.
-/

/-- Python strings, modelled as lists of characters. -/
abbrev Text := List Char

/-- Whitespace as recognised by Python's `str.split()` / `str.strip()`
(ASCII fragment: space, tab, newline, carriage return, vertical tab,
form feed). -/
def isWs (c : Char) : Bool :=
  c = ' ' || c = '\t' || c = '\n' || c = '\r' || c = Char.ofNat 11 || c = Char.ofNat 12

/-- Python `s.split()`: split on whitespace runs, discarding empty tokens. -/
def pyWords (l : Text) : List Text :=
  (List.splitOnP isWs l).filter (fun w => !w.isEmpty)

/-- Python `' '.join(line.split())`: collapse internal whitespace runs of a
single line to single spaces and strip the ends. -/
def cleanLine (l : Text) : Text :=
  List.intercalate [' '] (pyWords l)

/-- The `_clean_text` method: split on newlines, normalize each line's
whitespace, drop lines that become empty, rejoin with single newlines. -/
def cleanText (t : Text) : Text :=
  List.intercalate ['\n'] (((t.splitOn '\n').map cleanLine).filter (fun w => !w.isEmpty))

/-- Python `s.strip()`. -/
def pyStrip (l : Text) : Text :=
  ((l.dropWhile isWs).reverse.dropWhile isWs).reverse

/-- The extractor's `word_count = len(text.split())`. -/
def wordCount (t : Text) : Nat := (pyWords t).length

/-- Sentence-terminating punctuation of the regex `[.!?]+`. -/
def isPunct (c : Char) : Bool :=
  c = '.' || c = '!' || c = '?'

/-- Fuel-driven core of `re.split(r'[.!?]+', text)`: a maximal run of
punctuation acts as one separator and empty tokens at the boundaries are
kept.  `fuel ≥ length of the text` makes the fuel irrelevant. -/
def reSplitRunsGo : Nat → Text → List Text
  | _, [] => [[]]
  | 0, _ :: _ => [[]]
  | fuel + 1, c :: cs =>
    if isPunct c then [] :: reSplitRunsGo fuel (cs.dropWhile isPunct)
    else (reSplitRunsGo fuel cs).modifyHead (c :: ·)

/-- The result list of `re.split(r'[.!?]+', text)`. -/
def reSplitRuns (t : Text) : List Text := reSplitRunsGo t.length t

/-- The extractor's `sentence_count = len(re.split(r'[.!?]+', text))`. -/
def sentenceCount (t : Text) : Nat := (reSplitRuns t).length

/-- The extractor's `avg_sentence_length = word_count / max(sentence_count, 1)`. -/
def avgSentenceLen (t : Text) : ℚ :=
  (wordCount t : ℚ) / ((max (sentenceCount t) 1 : Nat) : ℚ)

/-- `selector_confidence = 1.0 - (i * 0.05)`. -/
def selectorConf (i : Nat) : ℚ := 1 - (i : ℚ) * (5 / 100)

/-- `length_confidence = min(word_count / 500, 1.0)`. -/
def lengthConf (t : Text) : ℚ := min ((wordCount t : ℚ) / 500) 1

/-- `structure_confidence = 1.0 if 10 < avg_sentence_length < 30 else 0.7`. -/
def structureConf (t : Text) : ℚ :=
  if 10 < avgSentenceLen t ∧ avgSentenceLen t < 30 then 1 else 7 / 10

/-- `pattern_confidence = 1.0 if has_paragraphs else 0.8`, where
`has_paragraphs = '\n' in text`. -/
def patternConf (t : Text) : ℚ :=
  if '\n' ∈ t then 1 else 8 / 10

/-- The selector-tier blended confidence:
`min(sel*0.4 + length*0.3 + structure*0.2 + pattern*0.1, 1.0)`. -/
def selectorTierConf (i : Nat) (t : Text) : ℚ :=
  min (selectorConf i * (4 / 10) + lengthConf t * (3 / 10) +
       structureConf t * (2 / 10) + patternConf t * (1 / 10)) 1

/-- Joining the stripped text segments of an element: the result of
`element.get_text(separator='\n', strip=True)`. -/
def joinSegs (segs : List Text) : Text := List.intercalate ['\n'] segs

/-- Abstract view of the parsed HTML page, holding exactly what
`_extract_content` queries from the BeautifulSoup tree.  A `some segs`
value of `selectorText`/`articlePostText` is the matched element's text
after the unwanted descendants were decomposed, as the list of stripped
segments that `get_text('\n', strip=True)` joins with newlines. -/
structure Soup where
  paywalled : Bool
  cardCount : Nat
  selectorText : String → Option (List Text)
  articlePostText : Option (List Text)
  paragraphs : List Text
  containerTexts : List (List Text)

/-- The ordered `CONTENT_SELECTORS` list of the scraper class. -/
def CONTENT_SELECTORS : List String :=
  ["#entry-content", ".entry-content", "div.entry-content", "article.post",
   "article[role=\"main\"]", "main article.post", "main article",
   "div.article-content", "div.post-content", "div.content-body",
   "section.post-content", "div.content", "article", "main"]

/-- The `for i, selector in enumerate(self.CONTENT_SELECTORS)` loop: the
first selector whose element exists and whose text passes the >100-char
gate wins; an existing element with short text falls through to the
next selector. -/
def scanSelectors (soup : Soup) : Nat → List String → Option (Text × ℚ)
  | _, [] => none
  | i, sel :: rest =>
    match soup.selectorText sel with
    | some segs =>
      if 100 < (joinSegs segs).length then
        some (cleanText (joinSegs segs), selectorTierConf i (joinSegs segs))
      else scanSelectors soup (i + 1) rest
    | none => scanSelectors soup (i + 1) rest

/-- The final `div.content, section.content, div.article-body,
section.article-body` container loop, capped at confidence 0.4. -/
def containersLoop : List (List Text) → Text × ℚ
  | [] => ([], 0)
  | segs :: rest =>
    if 100 < (joinSegs segs).length then
      (cleanText (joinSegs segs), min ((wordCount (joinSegs segs) : ℚ) / 500) (4 / 10))
    else containersLoop rest

def fallbackContainers (soup : Soup) : Text × ℚ :=
  containersLoop soup.containerTexts

/-- The all-paragraphs fallback: keep paragraphs of more than 30 stripped
characters, join with newlines, gate at >100 chars, cap at 0.5. -/
def fallbackParagraphs (soup : Soup) : Text × ℚ :=
  if (soup.paragraphs.filter (fun p => 30 < p.length)).isEmpty then fallbackContainers soup
  else
    if 100 < (List.intercalate ['\n'] (soup.paragraphs.filter (fun p => 30 < p.length))).length then
      (cleanText (List.intercalate ['\n'] (soup.paragraphs.filter (fun p => 30 < p.length))),
       min ((wordCount (List.intercalate ['\n'] (soup.paragraphs.filter (fun p => 30 < p.length))) : ℚ) / 500) (5 / 10))
    else fallbackContainers soup

/-- The `article.post` fallback probe, capped at 0.6. -/
def fallbackArticlePost (soup : Soup) : Text × ℚ :=
  match soup.articlePostText with
  | some segs =>
    if 100 < (joinSegs segs).length then
      (cleanText (joinSegs segs), min ((wordCount (joinSegs segs) : ℚ) / 500) (6 / 10))
    else fallbackParagraphs soup
  | none => fallbackParagraphs soup

/-- The `_extract_content` method.  The paywall check assigns 0.1 to the
local `confidence` variable exactly as the source does; every later
branch either returns `("", 0.0)` or rebinds the variable, so the
binding below is (deliberately) dead, mirroring the source. -/
def extractContent (soup : Soup) : Text × ℚ :=
  let _paywallSignal : ℚ := if soup.paywalled then 1 / 10 else 0
  if 2 < soup.cardCount then ([], 0)
  else
    match scanSelectors soup 0 CONTENT_SELECTORS with
    | some r => r
    | none => fallbackArticlePost soup

/-- Variant of `_extract_content` with the paywall-indicator check deleted,
written from the spec's open question to compare against `extractContent`. -/
def extractContentNoPaywall (soup : Soup) : Text × ℚ :=
  if 2 < soup.cardCount then ([], 0)
  else
    match scanSelectors soup 0 CONTENT_SELECTORS with
    | some r => r
    | none => fallbackArticlePost soup

/-- The confidence formula exactly as the claim states it:
`min(0.4*(1.0 - i*0.05) + 0.3*min(word_count/500, 1.0) + 0.2*(1.0 if the
mean words-per-sentence is strictly between 10 and 30 else 0.7) +
0.1*(1.0 if the text contains an internal newline else 0.8), 1.0)`. -/
def claimConfidence (i : Nat) (t : Text) : ℚ :=
  min ((4 / 10) * (1 - (i : ℚ) * (5 / 100)) +
       (3 / 10) * min ((wordCount t : ℚ) / 500) 1 +
       (2 / 10) * (if 10 < avgSentenceLen t ∧ avgSentenceLen t < 30 then 1 else 7 / 10) +
       (1 / 10) * (if '\n' ∈ t then 1 else 8 / 10)) 1

/-- Segments produced by `get_text(strip=True)`: whitespace-only strings
are skipped and the rest are stripped, so every emitted segment contains
a non-whitespace character. -/
def GoodSegs (segs : List Text) : Prop :=
  ∀ s ∈ segs, ∃ c ∈ s, isWs c = false

/-- Well-formedness of the abstract page: all texts stored in the `Soup`
come from `get_text(..., strip=True)`, hence are empty or contain a
non-whitespace character. -/
def WellFormedSoup (soup : Soup) : Prop :=
  (∀ sel segs, soup.selectorText sel = some segs → GoodSegs segs) ∧
  (∀ segs, soup.articlePostText = some segs → GoodSegs segs) ∧
  (∀ p ∈ soup.paragraphs, p = [] ∨ ∃ c ∈ p, isWs c = false) ∧
  (∀ segs ∈ soup.containerTexts, GoodSegs segs)

/-- The scraping strategies of the `ScrapingStrategy` enum. -/
inductive ScrapingStrategy where
  | basic
  | enhanced
  | cloudscraper
  | mcpPlaywright
  | rssFallback
  | noStrategy
deriving DecidableEq

/-- The fields of an `Article` that `scrape_article` reads or writes. -/
structure Article where
  url : String
  title : String
  description : Text
  content : Text
  scraping_success : Bool
  scraping_strategy : ScrapingStrategy
  extraction_confidence : ℚ
  failure_reason : String

/-- The scraper's `self.stats` accumulator.  `failure_reasons` records the
key of every `failure_reasons[key] += 1` update, one list entry per
increment. -/
structure ScrapeStats where
  total : Nat
  success : Nat
  failed : Nat
  rss_fallback : Nat
  high_confidence : Nat
  medium_confidence : Nat
  low_confidence : Nat
  total_confidence : ℚ
  failure_reasons : List String

/-- The freshly initialised statistics dictionary of `__init__`. -/
def initStats : ScrapeStats :=
  { total := 0, success := 0, failed := 0, rss_fallback := 0,
    high_confidence := 0, medium_confidence := 0, low_confidence := 0,
    total_confidence := 0, failure_reasons := [] }

/-- Outcome of the `_scrape_with_strategy(article.url)` call as observed by
`scrape_article`: either a returned `(content, confidence)` pair or a
raised exception with its type name and message. -/
inductive FetchOutcome where
  | ok (content : Text) (confidence : ℚ)
  | exn (errType : String) (errMsg : String)

/-- The confidence-bucket update of the full-content branch. -/
def trackConfidence (confidence : ℚ) (s : ScrapeStats) : ScrapeStats :=
  if 7 / 10 ≤ confidence then { s with high_confidence := s.high_confidence + 1 }
  else if 4 / 10 ≤ confidence then { s with medium_confidence := s.medium_confidence + 1 }
  else { s with low_confidence := s.low_confidence + 1 }

/-- The `scrape_article` method, with the fetch+extract pipeline call
abstracted into a `FetchOutcome` input.  Returns the updated statistics
and the updated article. -/
def scrapeArticle (strategy : ScrapingStrategy) (s : ScrapeStats)
    (article : Article) (fetched : FetchOutcome) : ScrapeStats × Article :=
  let s := { s with total := s.total + 1 }
  match fetched with
  | .ok content confidence =>
    if ¬content.isEmpty ∧ 100 < (pyStrip content).length then
      (trackConfidence confidence
        { s with success := s.success + 1,
                 total_confidence := s.total_confidence + confidence },
       { article with content := content, scraping_success := true,
                      scraping_strategy := strategy,
                      extraction_confidence := confidence, failure_reason := "" })
    else if ¬article.description.isEmpty then
      ({ s with success := s.success + 1, rss_fallback := s.rss_fallback + 1,
                low_confidence := s.low_confidence + 1,
                total_confidence := s.total_confidence + 3 / 10 },
       { article with content := article.description, scraping_success := true,
                      scraping_strategy := .rssFallback,
                      extraction_confidence := 3 / 10,
                      failure_reason := "Content extraction failed, using RSS description" })
    else
      ({ s with failed := s.failed + 1,
                failure_reasons := s.failure_reasons ++ ["No RSS fallback"] },
       { article with content := [], scraping_success := false,
                      scraping_strategy := .noStrategy, extraction_confidence := 0,
                      failure_reason := "No content extracted and no RSS description available" })
  | .exn errType errMsg =>
    let s := { s with failed := s.failed + 1,
                      failure_reasons := s.failure_reasons ++ [errType] }
    if ¬article.description.isEmpty then
      ({ s with rss_fallback := s.rss_fallback + 1,
                low_confidence := s.low_confidence + 1,
                total_confidence := s.total_confidence + 3 / 10 },
       { article with content := article.description, scraping_success := true,
                      scraping_strategy := .rssFallback,
                      extraction_confidence := 3 / 10,
                      failure_reason := "Scraping error: " ++ errMsg.take 200 ++ ", using RSS fallback" })
    else
      (s,
       { article with content := [], scraping_success := false,
                      scraping_strategy := .noStrategy, extraction_confidence := 0,
                      failure_reason := "Scraping error: " ++ errMsg.take 200 })

/-- The `scrape_articles` loop, each article paired with the outcome its
fetch+extract pipeline produces. -/
def scrapeArticles (strategy : ScrapingStrategy) :
    ScrapeStats → List (Article × FetchOutcome) → ScrapeStats × List Article
  | s, [] => (s, [])
  | s, (a, f) :: rest =>
    let r := scrapeArticle strategy s a f
    let rr := scrapeArticles strategy r.1 rest
    (rr.1, r.2 :: rr.2)

/-- Result of one `scraper(url)` call inside the retry loop of
`_scrape_with_strategy`: a returned pair or a raised exception. -/
inductive AttemptResult where
  | ok (content : Text) (confidence : ℚ)
  | raised (errMsg : String)

/-- The retry loop of `_scrape_with_strategy`, instrumented: returns the
final `(content, confidence)` pair, the number of `scraper(url)` calls
performed, and the list of backoff exponents `2^attempt` slept.  The
fuel argument starts at `max_retries` and counts the remaining loop
iterations. -/
def scrapeAttemptsGo (oracle : Nat → AttemptResult) (maxRetries : Nat) :
    Nat → Nat → (Text × ℚ) × Nat × List Nat
  | attempt, 0 => (([], 0), attempt, [])
  | attempt, fuel + 1 =>
    match oracle attempt with
    | .ok content confidence =>
      if content.isEmpty then scrapeAttemptsGo oracle maxRetries (attempt + 1) fuel
      else ((content, confidence), attempt + 1, [])
    | .raised _ =>
      let rest := scrapeAttemptsGo oracle maxRetries (attempt + 1) fuel
      if attempt < maxRetries - 1 then (rest.1, rest.2.1, 2 ^ attempt :: rest.2.2)
      else rest

/-- The `_scrape_with_strategy` method: up to `max_retries` attempts, where
an attempt is retried both when `scraper(url)` raises and when it
returns empty content (`if result and result[0]`). -/
def scrapeWithStrategy (maxRetries : Nat) (oracle : Nat → AttemptResult) :
    (Text × ℚ) × Nat × List Nat :=
  scrapeAttemptsGo oracle maxRetries 0 maxRetries

/-- Soup of a page where nothing matches at all. -/
def emptySoup : Soup :=
  { paywalled := false, cardCount := 0, selectorText := fun _ => none,
    articlePostText := none, paragraphs := [], containerTexts := [] }

/-- Soup of a listing page: three article cards plus a paragraph of content. -/
def listingSoup : Soup :=
  { paywalled := false, cardCount := 3, selectorText := fun _ => none,
    articlePostText := none,
    paragraphs := [List.replicate 40 'a'], containerTexts := [] }

/-- Run of `n` one-letter words separated by single spaces. -/
def scWordRun (n : Nat) : Text := List.intercalate [' '] (List.replicate n ['a'])

/-- A sentence of `n` one-letter words ending in a period. -/
def scSentence (n : Nat) : Text := scWordRun n ++ ['.']

/-- First paragraph of the end-to-end scenario: 12 sentences of 21 words. -/
def scLeft : Text := List.intercalate [' '] (List.replicate 12 (scSentence 21))

/-- Second paragraph of the scenario: 8 sentences of 21 words and 5 of 20
words, for 520 words in 25 sentences overall. -/
def scRight : Text :=
  List.intercalate [' '] (List.replicate 8 (scSentence 21) ++ List.replicate 5 (scSentence 20))

/-- Text segments of the scenario's `#entry-content` div: two paragraphs
joined by the internal newline. -/
def scenarioSegs : List Text := [scLeft, scRight]

/-- The full scenario text: 520 words, 25 sentences, one paragraph break. -/
def scenarioText : Text := joinSegs scenarioSegs

/-- Soup of the end-to-end scenario page: the `#entry-content` div holds the
520-word prose. -/
def scenarioSoup : Soup :=
  { paywalled := false, cardCount := 0,
    selectorText := fun sel => if sel = "#entry-content" then some scenarioSegs else none,
    articlePostText := none, paragraphs := [], containerTexts := [] }

/-- Text node of 102 raw characters that cleans down to 3 characters. -/
def spacedSeg : Text := 'a' :: (List.replicate 100 ' ' ++ ['b'])

/-- Soup whose `#entry-content` div passes the 100-character gate only thanks
to a long internal whitespace run. -/
def spacedSoup : Soup :=
  { paywalled := false, cardCount := 0,
    selectorText := fun sel => if sel = "#entry-content" then some [spacedSeg] else none,
    articlePostText := none, paragraphs := [], containerTexts := [] }

/-- Feed article with a one-character summary and an unscraped state. -/
def sampleArticle : Article :=
  { url := "https://example.com/a", title := "t", description := ['d'],
    content := [], scraping_success := false, scraping_strategy := .basic,
    extraction_confidence := 0, failure_reason := "" }

/-- Fetch oracle whose first attempt extracts nothing and whose later
attempts return 101 characters of content. -/
def c6oracle : Nat → AttemptResult :=
  fun n => if n = 0 then .ok [] 0 else .ok (List.replicate 101 'x') (9 / 10)

/-- Shape of a well-behaved extraction result: confidence within bounds and
empty text exactly at zero confidence. -/
def GoodResult (r : Text × ℚ) : Prop :=
  0 ≤ r.2 ∧ r.2 ≤ 1 ∧ (r.1 = [] ↔ r.2 = 0)

/-! ### Helper lemmas about `intercalate` and `splitOnP` -/

lemma intercalate_singleton (sep x : Text) : List.intercalate sep [x] = x := by
  simp [List.intercalate]

lemma intercalate_cons_of_ne_nil (sep x : Text) (T : List Text) (h : T ≠ []) :
    List.intercalate sep (x :: T) = x ++ sep ++ List.intercalate sep T := by
  match T, h with
  | y :: t, _ => simp [List.intercalate, List.intersperse_cons_cons]

lemma mem_intercalate_of_mem (sep : Text) {L : List Text} {w : Text} {c : Char}
    (hw : w ∈ L) (hc : c ∈ w) : c ∈ List.intercalate sep L := by
  induction L with
  | nil => cases hw
  | cons x T ih =>
    rcases eq_or_ne T [] with hT | hT
    · subst hT
      rw [List.mem_singleton] at hw
      subst hw
      rwa [intercalate_singleton]
    · rw [intercalate_cons_of_ne_nil sep x T hT]
      rcases List.mem_cons.mp hw with h | h
      · subst h
        exact List.mem_append.mpr (Or.inl (List.mem_append.mpr (Or.inl hc)))
      · exact List.mem_append.mpr (Or.inr (ih h))

lemma mem_of_mem_intercalate_single {s : Char} {L : List Text} {c : Char}
    (hc : c ∈ List.intercalate [s] L) : c = s ∨ ∃ w ∈ L, c ∈ w := by
  induction L with
  | nil => simp [List.intercalate] at hc
  | cons x T ih =>
    rcases eq_or_ne T [] with hT | hT
    · subst hT
      rw [intercalate_singleton] at hc
      exact Or.inr ⟨x, List.mem_singleton_self x, hc⟩
    · rw [intercalate_cons_of_ne_nil _ x T hT] at hc
      rcases List.mem_append.mp hc with h | h
      · rcases List.mem_append.mp h with h₂ | h₂
        · exact Or.inr ⟨x, List.mem_cons_self x T, h₂⟩
        · exact Or.inl (List.mem_singleton.mp h₂)
      · rcases ih h with h₂ | ⟨w, hw, hcw⟩
        · exact Or.inl h₂
        · exact Or.inr ⟨w, List.mem_cons_of_mem _ hw, hcw⟩

lemma mem_splitOnP_of_mem {p : Char → Bool} {l : Text} {c : Char}
    (hc : c ∈ l) (hp : p c = false) : ∃ w ∈ List.splitOnP p l, c ∈ w := by
  induction l with
  | nil => cases hc
  | cons a as ih =>
    rw [List.splitOnP_cons]
    by_cases ha : p a = true
    · rw [if_pos ha]
      rcases List.mem_cons.mp hc with h | h
      · rw [h, ha] at hp; cases hp
      · rcases ih h with ⟨w, hw, hcw⟩
        exact ⟨w, List.mem_cons_of_mem _ hw, hcw⟩
    · rw [if_neg ha]
      rcases hh : List.splitOnP p as with _ | ⟨h₀, t₀⟩
      · exact absurd hh (List.splitOnP_ne_nil p as)
      · simp only [List.modifyHead]
        rcases List.mem_cons.mp hc with h | h
        · refine ⟨a :: h₀, List.mem_cons_self _ _, ?_⟩
          rw [h]
          exact List.mem_cons_self _ _
        · rcases ih h with ⟨w, hw, hcw⟩
          rw [hh] at hw
          rcases List.mem_cons.mp hw with h₂ | h₂
          · refine ⟨a :: h₀, List.mem_cons_self _ _, ?_⟩
            rw [h₂] at hcw
            exact List.mem_cons_of_mem _ hcw
          · exact ⟨w, List.mem_cons_of_mem _ h₂, hcw⟩

lemma splitOnP_parts_no_p {p : Char → Bool} {l : Text} :
    ∀ w ∈ List.splitOnP p l, ∀ c ∈ w, p c = false := by
  induction l with
  | nil =>
    intro w hw c hc
    simp only [List.splitOnP_nil, List.mem_singleton] at hw
    subst hw; cases hc
  | cons a as ih =>
    intro w hw c hc
    rw [List.splitOnP_cons] at hw
    by_cases ha : p a = true
    · rw [if_pos ha] at hw
      rcases List.mem_cons.mp hw with h | h
      · subst h; cases hc
      · exact ih w h c hc
    · rw [if_neg ha] at hw
      rcases hh : List.splitOnP p as with _ | ⟨h₀, t₀⟩
      · exact absurd hh (List.splitOnP_ne_nil p as)
      · rw [hh] at hw
        simp only [List.modifyHead] at hw
        rcases List.mem_cons.mp hw with h | h
        · subst h
          rcases List.mem_cons.mp hc with h₂ | h₂
          · subst h₂; exact Bool.eq_false_iff.mpr ha
          · exact ih h₀ (hh ▸ List.mem_cons_self _ _) c h₂
        · exact ih w (hh ▸ List.mem_cons_of_mem _ h) c hc

lemma splitOnP_filter_intercalate {p : Char → Bool} {s : Char} (hs : p s = true) :
    ∀ {ws : List Text}, (∀ w ∈ ws, w ≠ [] ∧ ∀ c ∈ w, p c = false) →
    (List.splitOnP p (List.intercalate [s] ws)).filter (fun w => !w.isEmpty) = ws := by
  intro ws
  induction ws with
  | nil => intro _; simp [List.intercalate, List.splitOnP_nil]
  | cons x T ih =>
    intro hws
    rcases eq_or_ne T [] with hT | hT
    · subst hT
      rw [intercalate_singleton,
          List.splitOnP_eq_single p x (fun c hc => by
            simp [(hws x (List.mem_singleton_self x)).2 c hc])]
      have hx : x ≠ [] := (hws x (List.mem_singleton_self x)).1
      simp [List.isEmpty_iff, hx]
    · rw [intercalate_cons_of_ne_nil [s] x T hT, List.append_assoc,
          List.singleton_append,
          List.splitOnP_first p x (fun c hc => by
            simp [(hws x (List.mem_cons_self x T)).2 c hc]) s hs _]
      have hx : (!x.isEmpty) = true := by
        simpa [List.isEmpty_iff] using (hws x (List.mem_cons_self x T)).1
      rw [List.filter_cons, if_pos hx,
          ih (fun w hw => hws w (List.mem_cons_of_mem _ hw))]

/-! ### Length lemmas: cleanup never lengthens text -/

lemma intercalate_single_length (s : Char) :
    ∀ (L : List Text), L ≠ [] →
    (List.intercalate [s] L).length = (L.map List.length).sum + (L.length - 1) := by
  intro L
  induction L with
  | nil => intro h; cases h rfl
  | cons x T ih =>
    intro _
    rcases eq_or_ne T [] with hT | hT
    · subst hT; simp [intercalate_singleton]
    · rw [intercalate_cons_of_ne_nil [s] x T hT]
      have hlen := ih hT
      have hT1 : 1 ≤ T.length := List.length_pos.mpr hT
      simp only [List.length_append, List.map_cons, List.sum_cons, List.length_cons,
        List.length_singleton, List.length_nil, hlen]
      omega

lemma intercalate_splitOnP_length (s : Char) (p : Char → Bool) (l : Text) :
    (List.intercalate [s] (List.splitOnP p l)).length = l.length := by
  induction l with
  | nil => simp [List.splitOnP_nil, intercalate_singleton]
  | cons a as ih =>
    rw [List.splitOnP_cons]
    by_cases ha : p a = true
    · rw [if_pos ha,
        intercalate_cons_of_ne_nil [s] [] _ (List.splitOnP_ne_nil p as)]
      simp only [List.nil_append, List.singleton_append, List.length_cons, ih]
    · rw [if_neg ha]
      rcases hh : List.splitOnP p as with _ | ⟨h₀, t₀⟩
      · exact absurd hh (List.splitOnP_ne_nil p as)
      · rw [hh] at ih
        simp only [List.modifyHead]
        rcases eq_or_ne t₀ [] with ht | ht
        · subst ht
          rw [intercalate_singleton] at ih ⊢
          simp [ih]
        · rw [intercalate_cons_of_ne_nil [s] _ t₀ ht] at ih ⊢
          simp only [List.length_append, List.length_cons] at *
          omega

lemma intercalate_filter_length_le (s : Char) (L : List Text) :
    (List.intercalate [s] (L.filter (fun w => !w.isEmpty))).length ≤
    (List.intercalate [s] L).length := by
  rcases eq_or_ne L [] with hL | hL
  · subst hL; simp [List.intercalate]
  rcases eq_or_ne (L.filter (fun w => !w.isEmpty)) [] with hF | hF
  · rw [hF]; simp [List.intercalate]
  rw [intercalate_single_length s L hL, intercalate_single_length s _ hF]
  have hsub : (L.filter (fun w => !w.isEmpty)).Sublist L := List.filter_sublist L
  have hsum : ((L.filter (fun w => !w.isEmpty)).map List.length).sum ≤
      (L.map List.length).sum :=
    List.Sublist.sum_le_sum (hsub.map List.length) (fun a _ => Nat.zero_le a)
  have hlen : (L.filter (fun w => !w.isEmpty)).length ≤ L.length := hsub.length_le
  omega

lemma intercalate_map_length_le (s : Char) (f : Text → Text) (L : List Text)
    (hf : ∀ l ∈ L, (f l).length ≤ l.length) :
    (List.intercalate [s] (L.map f)).length ≤ (List.intercalate [s] L).length := by
  rcases eq_or_ne L [] with hL | hL
  · subst hL; simp
  have hLm : L.map f ≠ [] := by simpa using hL
  rw [intercalate_single_length s L hL, intercalate_single_length s _ hLm]
  have hsum : ((L.map f).map List.length).sum ≤ (L.map List.length).sum := by
    rw [List.map_map]
    exact List.sum_le_sum hf
  simp only [List.length_map]
  omega

lemma cleanLine_length_le (l : Text) : (cleanLine l).length ≤ l.length := by
  unfold cleanLine pyWords
  calc (List.intercalate [' ']
          ((List.splitOnP isWs l).filter (fun w => !w.isEmpty))).length
      ≤ (List.intercalate [' '] (List.splitOnP isWs l)).length :=
        intercalate_filter_length_le ' ' _
    _ = l.length := intercalate_splitOnP_length ' ' isWs l

lemma cleanText_length_le (t : Text) : (cleanText t).length ≤ t.length := by
  unfold cleanText
  calc (List.intercalate ['\n']
          (((t.splitOn '\n').map cleanLine).filter (fun w => !w.isEmpty))).length
      ≤ (List.intercalate ['\n'] ((t.splitOn '\n').map cleanLine)).length :=
        intercalate_filter_length_le '\n' _
    _ ≤ (List.intercalate ['\n'] (t.splitOn '\n')).length :=
        intercalate_map_length_le '\n' cleanLine _ (fun l _ => cleanLine_length_le l)
    _ = t.length := by
        simp only [List.splitOn]
        exact intercalate_splitOnP_length '\n' (· == '\n') t

/-! ### Word and cleanup lemmas -/

lemma pyWords_props {l : Text} : ∀ w ∈ pyWords l, w ≠ [] ∧ ∀ c ∈ w, isWs c = false := by
  intro w hw
  unfold pyWords at hw
  have h := List.mem_filter.mp hw
  refine ⟨?_, fun c hc => splitOnP_parts_no_p w h.1 c hc⟩
  intro hnil
  rw [hnil] at h
  simp at h

lemma pyWords_ne_nil {l : Text} (h : ∃ c ∈ l, isWs c = false) : pyWords l ≠ [] := by
  rcases h with ⟨c, hc, hcw⟩
  rcases mem_splitOnP_of_mem hc hcw with ⟨w, hw, hcw₂⟩
  have hne : w ≠ [] := List.ne_nil_of_mem hcw₂
  have : w ∈ pyWords l := by
    unfold pyWords
    exact List.mem_filter.mpr ⟨hw, by simpa [List.isEmpty_iff] using hne⟩
  exact List.ne_nil_of_mem this

lemma wordCount_pos {l : Text} (h : ∃ c ∈ l, isWs c = false) : 1 ≤ wordCount l := by
  unfold wordCount
  have := pyWords_ne_nil h
  exact List.length_pos.mpr this

lemma cleanLine_ne_nil {l : Text} (h : ∃ c ∈ l, isWs c = false) : cleanLine l ≠ [] := by
  have hne := pyWords_ne_nil h
  rcases List.exists_mem_of_ne_nil _ hne with ⟨w, hw⟩
  rcases List.exists_mem_of_ne_nil w (pyWords_props w hw).1 with ⟨c, hc⟩
  exact List.ne_nil_of_mem (mem_intercalate_of_mem [' '] hw hc)

lemma cleanLine_chars {l : Text} : ∀ c ∈ cleanLine l, c = ' ' ∨ isWs c = false := by
  intro c hc
  unfold cleanLine at hc
  rcases mem_of_mem_intercalate_single hc with h | ⟨w, hw, hcw⟩
  · exact Or.inl h
  · exact Or.inr ((pyWords_props w hw).2 c hcw)

lemma cleanLine_no_newline {l : Text} : ∀ c ∈ cleanLine l, c ≠ '\n' := by
  intro c hc hcn
  rcases cleanLine_chars c hc with h | h
  · rw [hcn] at h; cases h
  · rw [hcn] at h; cases h

lemma isWs_newline : isWs '\n' = true := rfl

lemma cleanText_ne_nil {t : Text} (h : ∃ c ∈ t, isWs c = false) : cleanText t ≠ [] := by
  rcases h with ⟨c, hc, hcw⟩
  have hcn : (c == '\n') = false := by
    apply beq_eq_false_iff_ne.mpr
    intro he
    rw [he] at hcw
    cases hcw
  rcases mem_splitOnP_of_mem (p := (· == '\n')) hc hcn with ⟨w, hw, hcw₂⟩
  have hwl : w ∈ t.splitOn '\n' := by rwa [List.splitOn]
  have hcl : cleanLine w ≠ [] := cleanLine_ne_nil ⟨c, hcw₂, hcw⟩
  have hmem : cleanLine w ∈ ((t.splitOn '\n').map cleanLine).filter (fun w => !w.isEmpty) :=
    List.mem_filter.mpr ⟨List.mem_map_of_mem cleanLine hwl,
      by simpa [List.isEmpty_iff] using hcl⟩
  rcases List.exists_mem_of_ne_nil _ hcl with ⟨c₂, hc₂⟩
  exact List.ne_nil_of_mem (mem_intercalate_of_mem ['\n'] hmem hc₂)

lemma isWs_space : isWs ' ' = true := rfl

lemma pyWords_cleanLine (l : Text) : pyWords (cleanLine l) = pyWords l := by
  unfold cleanLine
  show (List.splitOnP isWs (List.intercalate [' '] (pyWords l))).filter (fun w => !w.isEmpty)
      = pyWords l
  exact splitOnP_filter_intercalate isWs_space pyWords_props

lemma cleanLine_idem (l : Text) : cleanLine (cleanLine l) = cleanLine l := by
  show List.intercalate [' '] (pyWords (cleanLine l)) = cleanLine l
  rw [pyWords_cleanLine]
  rfl

lemma cleanText_of_canonical {L : List Text}
    (h : ∀ l ∈ L, l ≠ [] ∧ cleanLine l = l ∧ '\n' ∉ l) :
    cleanText (List.intercalate ['\n'] L) = List.intercalate ['\n'] L := by
  rcases eq_or_ne L [] with hL | hL
  · subst hL
    rfl
  · unfold cleanText
    have hsplit : (List.intercalate ['\n'] L).splitOn '\n' = L :=
      List.splitOn_intercalate L '\n' (fun l hl => (h l hl).2.2) hL
    rw [hsplit]
    have hmap : L.map cleanLine = L := by
      rw [List.map_congr_left (fun l hl => (h l hl).2.1)]
      simp
    rw [hmap]
    have hfilter : L.filter (fun w => !w.isEmpty) = L :=
      List.filter_eq_self.mpr (fun l hl => by
        simpa [List.isEmpty_iff] using (h l hl).1)
    rw [hfilter]

lemma cleanText_idem (t : Text) : cleanText (cleanText t) = cleanText t := by
  have hmem : ∀ l ∈ ((t.splitOn '\n').map cleanLine).filter (fun w => !w.isEmpty),
      l ≠ [] ∧ cleanLine l = l ∧ '\n' ∉ l := by
    intro l hl
    have h := List.mem_filter.mp hl
    rcases List.mem_map.mp h.1 with ⟨x, _, hx⟩
    have hne : l ≠ [] := by
      intro hnil
      rw [hnil] at h
      simp at h
    refine ⟨hne, ?_, ?_⟩
    · rw [← hx, cleanLine_idem]
    · intro hmem₂
      rw [← hx] at hmem₂
      exact cleanLine_no_newline '\n' hmem₂ rfl
  exact cleanText_of_canonical hmem

/-! ### Confidence bound lemmas -/

lemma structureConf_bounds (t : Text) : 7 / 10 ≤ structureConf t ∧ structureConf t ≤ 1 := by
  unfold structureConf
  split <;> norm_num

lemma patternConf_bounds (t : Text) : 8 / 10 ≤ patternConf t ∧ patternConf t ≤ 1 := by
  unfold patternConf
  split <;> norm_num

lemma lengthConf_bounds (t : Text) : 0 ≤ lengthConf t ∧ lengthConf t ≤ 1 := by
  unfold lengthConf
  constructor
  · apply le_min
    · positivity
    · norm_num
  · exact min_le_right _ _

lemma selectorConf_nonneg {i : Nat} (hi : i ≤ 13) : 0 ≤ selectorConf i := by
  unfold selectorConf
  have hc : (i : ℚ) ≤ 13 := by exact_mod_cast hi
  linarith

lemma selectorTierConf_pos {i : Nat} (hi : i ≤ 13) (t : Text) :
    0 < selectorTierConf i t ∧ selectorTierConf i t ≤ 1 := by
  unfold selectorTierConf
  have h1 := selectorConf_nonneg hi
  have h2 := lengthConf_bounds t
  have h3 := structureConf_bounds t
  have h4 := patternConf_bounds t
  constructor
  · apply lt_min
    · nlinarith [h2.1, h3.1, h4.1]
    · norm_num
  · exact min_le_right _ _

lemma capConf_pos {n : Nat} {cap : ℚ} (hn : 1 ≤ n) (hcap : 0 < cap) :
    0 < min ((n : ℚ) / 500) cap := by
  apply lt_min
  · have : (1 : ℚ) ≤ (n : ℚ) := by exact_mod_cast hn
    positivity
  · exact hcap

lemma joinSegs_has_char {segs : List Text} (hg : GoodSegs segs)
    (hlen : 0 < (joinSegs segs).length) : ∃ c ∈ joinSegs segs, isWs c = false := by
  rcases eq_or_ne segs [] with h | h
  · subst h
    simp [joinSegs, List.intercalate] at hlen
  · rcases List.exists_mem_of_ne_nil _ h with ⟨s, hs⟩
    rcases hg s hs with ⟨c, hc, hcw⟩
    exact ⟨c, mem_intercalate_of_mem ['\n'] hs hc, hcw⟩

lemma goodResult_of_clean {t : Text} {cap : ℚ} (ht : ∃ c ∈ t, isWs c = false)
    (hcap₀ : 0 < cap) (hcap₁ : cap ≤ 1) :
    GoodResult (cleanText t, min ((wordCount t : ℚ) / 500) cap) := by
  have hpos : 0 < min ((wordCount t : ℚ) / 500) cap := capConf_pos (wordCount_pos ht) hcap₀
  unfold GoodResult
  dsimp only
  refine ⟨le_of_lt hpos, le_trans (min_le_right _ _) hcap₁, ?_⟩
  constructor
  · intro hnil
    exact absurd hnil (cleanText_ne_nil ht)
  · intro hzero
    rw [hzero] at hpos
    exact absurd hpos (lt_irrefl 0)

/-! ### Cascade lemmas -/

lemma goodResult_empty : GoodResult ([], 0) := by
  unfold GoodResult
  exact ⟨le_refl 0, by norm_num, by simp⟩

lemma containersLoop_good {L : List (List Text)} (h : ∀ segs ∈ L, GoodSegs segs) :
    GoodResult (containersLoop L) := by
  induction L with
  | nil => exact goodResult_empty
  | cons segs rest ih =>
    rw [containersLoop]
    by_cases hlen : 100 < (joinSegs segs).length
    · rw [if_pos hlen]
      exact goodResult_of_clean
        (joinSegs_has_char (h segs (List.mem_cons_self _ _)) (by omega))
        (by norm_num) (by norm_num)
    · rw [if_neg hlen]
      exact ih (fun s hs => h s (List.mem_cons_of_mem _ hs))

lemma fallbackParagraphs_good {soup : Soup}
    (hp : ∀ p ∈ soup.paragraphs, p = [] ∨ ∃ c ∈ p, isWs c = false)
    (hc : ∀ segs ∈ soup.containerTexts, GoodSegs segs) :
    GoodResult (fallbackParagraphs soup) := by
  unfold fallbackParagraphs fallbackContainers
  split
  · exact containersLoop_good hc
  next h1 =>
    split
    next h2 =>
      apply goodResult_of_clean ?_ (by norm_num) (by norm_num)
      have hne : soup.paragraphs.filter (fun p => 30 < p.length) ≠ [] := by
        simpa [List.isEmpty_iff] using h1
      rcases List.exists_mem_of_ne_nil _ hne with ⟨p₀, hp₀⟩
      have hm := List.mem_filter.mp hp₀
      have hlen : 30 < p₀.length := of_decide_eq_true hm.2
      have hpne : p₀ ≠ [] := by
        intro h
        rw [h] at hlen
        simp at hlen
      rcases hp p₀ hm.1 with h | ⟨c, hc₂, hcw⟩
      · exact absurd h hpne
      · exact ⟨c, mem_intercalate_of_mem ['\n'] hp₀ hc₂, hcw⟩
    next h2 => exact containersLoop_good hc

lemma fallbackArticlePost_good {soup : Soup}
    (ha : ∀ segs, soup.articlePostText = some segs → GoodSegs segs)
    (hp : ∀ p ∈ soup.paragraphs, p = [] ∨ ∃ c ∈ p, isWs c = false)
    (hc : ∀ segs ∈ soup.containerTexts, GoodSegs segs) :
    GoodResult (fallbackArticlePost soup) := by
  unfold fallbackArticlePost
  split
  next segs hsegs =>
    by_cases hlen : 100 < (joinSegs segs).length
    · rw [if_pos hlen]
      exact goodResult_of_clean
        (joinSegs_has_char (ha segs hsegs) (by omega)) (by norm_num) (by norm_num)
    · rw [if_neg hlen]
      exact fallbackParagraphs_good hp hc
  next => exact fallbackParagraphs_good hp hc

lemma scanSelectors_good {soup : Soup}
    (hWF : ∀ sel segs, soup.selectorText sel = some segs → GoodSegs segs) :
    ∀ (sels : List String) (i : Nat), i + sels.length ≤ 14 →
    ∀ t q, scanSelectors soup i sels = some (t, q) → t ≠ [] ∧ 0 < q ∧ q ≤ 1 := by
  intro sels
  induction sels with
  | nil =>
    intro i _ t q h
    simp [scanSelectors] at h
  | cons sel rest ih =>
    intro i hi t q h
    rw [scanSelectors] at h
    rcases hsel : soup.selectorText sel with _ | segs
    · rw [hsel] at h
      exact ih (i + 1) (by simp at hi ⊢; omega) t q h
    · rw [hsel] at h
      have h₂ :
          (if 100 < (joinSegs segs).length then
             some (cleanText (joinSegs segs), selectorTierConf i (joinSegs segs))
           else scanSelectors soup (i + 1) rest) = some (t, q) := h
      by_cases hlen : 100 < (joinSegs segs).length
      · rw [if_pos hlen] at h₂
        simp only [Option.some.injEq, Prod.mk.injEq] at h₂
        obtain ⟨ht, hq⟩ := h₂
        subst ht
        subst hq
        have hi13 : i ≤ 13 := by simp at hi; omega
        have hchar := joinSegs_has_char (hWF sel segs hsel) (by omega)
        exact ⟨cleanText_ne_nil hchar, selectorTierConf_pos hi13 _⟩
      · rw [if_neg hlen] at h₂
        exact ih (i + 1) (by simp at hi ⊢; omega) t q h₂

lemma scanSelectors_first_hit {soup : Soup} :
    ∀ (sels : List String) (k i : Nat) (sel : String) (segs : List Text),
    sels[i]? = some sel →
    soup.selectorText sel = some segs →
    100 < (joinSegs segs).length →
    (∀ j, j < i → ∀ sel₂, sels[j]? = some sel₂ →
      ∀ segs₂, soup.selectorText sel₂ = some segs₂ → (joinSegs segs₂).length ≤ 100) →
    scanSelectors soup k sels =
      some (cleanText (joinSegs segs), selectorTierConf (k + i) (joinSegs segs)) := by
  intro sels
  induction sels with
  | nil =>
    intro k i sel segs hget
    simp at hget
  | cons s rest ih =>
    intro k i sel segs hget hsel hlen hfirst
    cases i with
    | zero =>
      have hs : s = sel := by simpa using hget
      subst hs
      show (match soup.selectorText s with
        | some segs =>
          if 100 < (joinSegs segs).length then
            some (cleanText (joinSegs segs), selectorTierConf k (joinSegs segs))
          else scanSelectors soup (k + 1) rest
        | none => scanSelectors soup (k + 1) rest) =
        some (cleanText (joinSegs segs), selectorTierConf (k + 0) (joinSegs segs))
      rw [hsel]
      simp only [Nat.add_zero]
      rw [if_pos hlen]
    | succ i₂ =>
      have hget₂ : rest[i₂]? = some sel := by simpa using hget
      have hfirst₂ : ∀ j, j < i₂ → ∀ sel₂, rest[j]? = some sel₂ →
          ∀ segs₂, soup.selectorText sel₂ = some segs₂ → (joinSegs segs₂).length ≤ 100 := by
        intro j hj sel₂ hg segs₂ hs₂
        exact hfirst (j + 1) (by omega) sel₂ (by simpa using hg) segs₂ hs₂
      have hrec := ih (k + 1) i₂ sel segs hget₂ hsel hlen hfirst₂
      have harith : k + 1 + i₂ = k + (i₂ + 1) := by omega
      rw [harith] at hrec
      show (match soup.selectorText s with
        | some segs =>
          if 100 < (joinSegs segs).length then
            some (cleanText (joinSegs segs), selectorTierConf k (joinSegs segs))
          else scanSelectors soup (k + 1) rest
        | none => scanSelectors soup (k + 1) rest) =
        some (cleanText (joinSegs segs), selectorTierConf (k + (i₂ + 1)) (joinSegs segs))
      rcases hs : soup.selectorText s with _ | segs₀
      · exact hrec
      · have h100 : (joinSegs segs₀).length ≤ 100 :=
          hfirst 0 (Nat.succ_pos i₂) s (by simp) segs₀ hs
        show (if 100 < (joinSegs segs₀).length then
              some (cleanText (joinSegs segs₀), selectorTierConf k (joinSegs segs₀))
            else scanSelectors soup (k + 1) rest) =
          some (cleanText (joinSegs segs), selectorTierConf (k + (i₂ + 1)) (joinSegs segs))
        rw [if_neg (by omega)]
        exact hrec

/-! ### Orchestrator lemmas -/

lemma claimConfidence_eq (i : Nat) (t : Text) :
    claimConfidence i t = selectorTierConf i t := by
  unfold claimConfidence selectorTierConf selectorConf lengthConf structureConf patternConf
  congr 1
  ring

lemma extractContent_of_scan {soup : Soup} {r : Text × ℚ}
    (hcard : soup.cardCount ≤ 2)
    (hscan : scanSelectors soup 0 CONTENT_SELECTORS = some r) :
    extractContent soup = r := by
  show (if 2 < soup.cardCount then (([], 0) : Text × ℚ)
    else match scanSelectors soup 0 CONTENT_SELECTORS with
      | some r => r
      | none => fallbackArticlePost soup) = r
  rw [if_neg (by omega), hscan]

lemma trackConfidence_counts (confidence : ℚ) (s : ScrapeStats) :
    (trackConfidence confidence s).total = s.total ∧
    (trackConfidence confidence s).success = s.success ∧
    (trackConfidence confidence s).failed = s.failed := by
  unfold trackConfidence
  split
  · exact ⟨rfl, rfl, rfl⟩
  · split
    · exact ⟨rfl, rfl, rfl⟩
    · exact ⟨rfl, rfl, rfl⟩

lemma scrapeArticle_counts (strategy : ScrapingStrategy) (s : ScrapeStats)
    (a : Article) (f : FetchOutcome) :
    (scrapeArticle strategy s a f).1.total = s.total + 1 ∧
    (scrapeArticle strategy s a f).1.success + (scrapeArticle strategy s a f).1.failed
      = s.success + s.failed + 1 := by
  cases f with
  | ok content confidence =>
    unfold scrapeArticle trackConfidence
    dsimp only
    split_ifs <;> dsimp only <;> omega
  | exn errType errMsg =>
    unfold scrapeArticle
    dsimp only
    split_ifs <;> dsimp only <;> omega

lemma scrapeArticles_counts (strategy : ScrapingStrategy) :
    ∀ (pairs : List (Article × FetchOutcome)) (s : ScrapeStats),
    (scrapeArticles strategy s pairs).1.total = s.total + pairs.length ∧
    (scrapeArticles strategy s pairs).1.success + (scrapeArticles strategy s pairs).1.failed
      = s.success + s.failed + pairs.length := by
  intro pairs
  induction pairs with
  | nil =>
    intro s
    simp [scrapeArticles]
  | cons pf rest ih =>
    intro s
    obtain ⟨a, f⟩ := pf
    have h1 := scrapeArticle_counts strategy s a f
    have h2 := ih (scrapeArticle strategy s a f).1
    simp only [scrapeArticles, List.length_cons]
    constructor
    · rw [h2.1, h1.1]
      omega
    · rw [h2.2]
      omega

lemma scrapeAttemptsGo_allEmpty (oracle : Nat → AttemptResult) (maxRetries : Nat)
    (h : ∀ n, oracle n = .ok [] 0) :
    ∀ (fuel attempt : Nat),
    scrapeAttemptsGo oracle maxRetries attempt fuel = (([], 0), attempt + fuel, []) := by
  intro fuel
  induction fuel with
  | zero => intro attempt; rfl
  | succ fuel ih =>
    intro attempt
    show (match oracle attempt with
      | .ok content confidence =>
        if content.isEmpty then scrapeAttemptsGo oracle maxRetries (attempt + 1) fuel
        else ((content, confidence), attempt + 1, [])
      | .raised _ =>
        if attempt < maxRetries - 1 then
          ((scrapeAttemptsGo oracle maxRetries (attempt + 1) fuel).1,
           (scrapeAttemptsGo oracle maxRetries (attempt + 1) fuel).2.1,
           2 ^ attempt :: (scrapeAttemptsGo oracle maxRetries (attempt + 1) fuel).2.2)
        else scrapeAttemptsGo oracle maxRetries (attempt + 1) fuel) =
      (([], 0), attempt + (fuel + 1), [])
    rw [h attempt]
    simp only [List.isEmpty_nil, if_pos]
    rw [ih (attempt + 1)]
    congr 1
    simp
    omega

/-! ### Claims -/

/-- C1: for every parsed HTML page, `_extract_content` returns a pair
`(text, confidence)` with `0.0 ≤ confidence ≤ 1.0`, and the returned text is
empty exactly when the confidence is `0.0` (non-empty extracted text always
carries strictly positive confidence, every empty-text return carries 0.0). -/
theorem C1_extraction_invariant (soup : Soup) (hWF : WellFormedSoup soup) :
    0 ≤ (extractContent soup).2 ∧ (extractContent soup).2 ≤ 1 ∧
    ((extractContent soup).1 = [] ↔ (extractContent soup).2 = 0) := by
  obtain ⟨h1, h2, h3, h4⟩ := hWF
  have hgr : GoodResult (extractContent soup) := by
    show GoodResult (if 2 < soup.cardCount then (([], 0) : Text × ℚ)
      else match scanSelectors soup 0 CONTENT_SELECTORS with
        | some r => r
        | none => fallbackArticlePost soup)
    by_cases hc : 2 < soup.cardCount
    · rw [if_pos hc]
      exact goodResult_empty
    · rw [if_neg hc]
      rcases hscan : scanSelectors soup 0 CONTENT_SELECTORS with _ | r
      · exact fallbackArticlePost_good h2 h3 h4
      · obtain ⟨t, q⟩ := r
        have hg := scanSelectors_good h1 CONTENT_SELECTORS 0 (by decide) t q hscan
        show GoodResult (t, q)
        unfold GoodResult
        dsimp only
        refine ⟨le_of_lt hg.2.1, hg.2.2, ?_⟩
        constructor
        · intro h
          exact absurd h hg.1
        · intro h
          rw [h] at hg
          exact absurd hg.2.1 (lt_irrefl 0)
  exact hgr

/-- Witness for C1 at a concrete well-formed page with no content. -/
theorem C1_extraction_invariant_witness :
    0 ≤ (extractContent emptySoup).2 ∧ (extractContent emptySoup).2 ≤ 1 ∧
    ((extractContent emptySoup).1 = [] ↔ (extractContent emptySoup).2 = 0) :=
  C1_extraction_invariant emptySoup
    (by refine ⟨?_, ?_, ?_, ?_⟩ <;> intros <;> simp_all [emptySoup])

/-- C2: when the first qualifying selector match (text longer than 100
characters) is at rank `i`, the returned confidence is exactly
`min(0.4*(1 - i*0.05) + 0.3*min(wc/500, 1) + 0.2*(1 if 10 < avg < 30 else
0.7) + 0.1*(1 if internal newline else 0.8), 1)`, and the returned text is
the cleaned selector text. -/
theorem C2_selector_confidence (soup : Soup) (i : Nat) (sel : String) (segs : List Text)
    (hcard : soup.cardCount ≤ 2)
    (hget : CONTENT_SELECTORS[i]? = some sel)
    (hsel : soup.selectorText sel = some segs)
    (hlen : 100 < (joinSegs segs).length)
    (hfirst : ∀ j, j < i → ∀ sel₂, CONTENT_SELECTORS[j]? = some sel₂ →
      ∀ segs₂, soup.selectorText sel₂ = some segs₂ → (joinSegs segs₂).length ≤ 100) :
    extractContent soup = (cleanText (joinSegs segs), claimConfidence i (joinSegs segs)) := by
  have h := scanSelectors_first_hit CONTENT_SELECTORS 0 i sel segs hget hsel hlen hfirst
  rw [Nat.zero_add] at h
  rw [extractContent_of_scan hcard h, claimConfidence_eq]

set_option maxRecDepth 20000 in
/-- Witness for C2: the end-to-end scenario (520 words of prose in 25
sentences inside `#entry-content`, one internal paragraph break) extracts
with confidence exactly 1. -/
theorem C2_selector_confidence_witness :
    extractContent scenarioSoup = (cleanText scenarioText, 1) := by
  have hsel : scenarioSoup.selectorText "#entry-content" = some scenarioSegs := rfl
  have h := C2_selector_confidence scenarioSoup 0 "#entry-content" scenarioSegs
    (by decide) rfl hsel (by decide) (fun j hj => absurd hj (Nat.not_lt_zero j))
  rw [h]
  show (cleanText scenarioText, claimConfidence 0 scenarioText)
      = (cleanText scenarioText, 1)
  have hwc : wordCount scenarioText = 520 := by decide
  have hsc : sentenceCount scenarioText = 26 := by decide
  have hnl : '\n' ∈ scenarioText := by decide
  have havg : avgSentenceLen scenarioText = 20 := by
    unfold avgSentenceLen
    rw [hwc, hsc]
    norm_num
  have hconf : claimConfidence 0 scenarioText = 1 := by
    unfold claimConfidence
    rw [hwc, havg, if_pos (by norm_num : (10:ℚ) < 20 ∧ (20:ℚ) < 30), if_pos hnl]
    rw [min_eq_right (by norm_num : (1:ℚ) ≤ ((520:ℕ):ℚ) / 500)]
    norm_num
  rw [hconf]

/-- C3: when the fetch+extract pipeline yields empty text and the feed
summary (description) is non-empty, `scrape_article` resolves as a success
with confidence exactly 0.3, content equal to the summary, and a non-empty
failure_reason noting the fallback. -/
theorem C3_rss_fallback (strategy : ScrapingStrategy) (s : ScrapeStats) (a : Article)
    (confidence : ℚ) (hdesc : a.description ≠ []) :
    (scrapeArticle strategy s a (.ok [] confidence)).2.scraping_success = true ∧
    (scrapeArticle strategy s a (.ok [] confidence)).2.extraction_confidence = 3 / 10 ∧
    (scrapeArticle strategy s a (.ok [] confidence)).2.content = a.description ∧
    (scrapeArticle strategy s a (.ok [] confidence)).2.failure_reason
      = "Content extraction failed, using RSS description" ∧
    (scrapeArticle strategy s a (.ok [] confidence)).2.failure_reason ≠ "" ∧
    (scrapeArticle strategy s a (.ok [] confidence)).1.success = s.success + 1 := by
  have hd : ¬a.description.isEmpty := by simpa [List.isEmpty_iff] using hdesc
  unfold scrapeArticle
  dsimp only
  rw [if_neg (by decide), if_pos hd]
  refine ⟨rfl, rfl, rfl, rfl, ?_, rfl⟩
  show "Content extraction failed, using RSS description" ≠ ""
  decide

/-- Witness for C3 at a concrete article with a non-empty summary. -/
theorem C3_rss_fallback_witness :
    (scrapeArticle .basic initStats sampleArticle (.ok [] 0)).2.scraping_success = true ∧
    (scrapeArticle .basic initStats sampleArticle (.ok [] 0)).2.extraction_confidence = 3 / 10 ∧
    (scrapeArticle .basic initStats sampleArticle (.ok [] 0)).2.content
      = sampleArticle.description ∧
    (scrapeArticle .basic initStats sampleArticle (.ok [] 0)).2.failure_reason
      = "Content extraction failed, using RSS description" ∧
    (scrapeArticle .basic initStats sampleArticle (.ok [] 0)).2.failure_reason ≠ "" ∧
    (scrapeArticle .basic initStats sampleArticle (.ok [] 0)).1.success
      = initStats.success + 1 :=
  C3_rss_fallback .basic initStats sampleArticle 0 (by decide)

/-- C4: every call of `scrape_article` increments `total` by exactly one and
exactly one of `success`/`failed` by exactly one, in every resolution
branch; hence after `scrape_articles` over `N` articles starting from fresh
statistics, `total = N` and `success + failed = N`. -/
theorem C4_stats_totals :
    (∀ (strategy : ScrapingStrategy) (s : ScrapeStats) (a : Article) (f : FetchOutcome),
      (scrapeArticle strategy s a f).1.total = s.total + 1 ∧
      (scrapeArticle strategy s a f).1.success + (scrapeArticle strategy s a f).1.failed
        = s.success + s.failed + 1) ∧
    (∀ (strategy : ScrapingStrategy) (pairs : List (Article × FetchOutcome)),
      (scrapeArticles strategy initStats pairs).1.total = pairs.length ∧
      (scrapeArticles strategy initStats pairs).1.success +
        (scrapeArticles strategy initStats pairs).1.failed = pairs.length) := by
  constructor
  · exact scrapeArticle_counts
  · intro strategy pairs
    have h := scrapeArticles_counts strategy pairs initStats
    simpa [initStats] using h

/-- C5 evaluation at the failing input: an exception with a non-empty
summary marks the article as a successful RSS-fallback scrape with
confidence 0.3, yet the statistics count it in `failed` (and not in
`success`), while still incrementing `rss_fallback`, `low_confidence` and
the running confidence sum and recording the exception type. -/
theorem C5_exception_fallback_miscount :
    (scrapeArticle .basic initStats sampleArticle (.exn "Timeout" "boom")).2.scraping_success
      = true ∧
    (scrapeArticle .basic initStats sampleArticle
      (.exn "Timeout" "boom")).2.extraction_confidence = 3 / 10 ∧
    (scrapeArticle .basic initStats sampleArticle (.exn "Timeout" "boom")).2.content
      = sampleArticle.description ∧
    (scrapeArticle .basic initStats sampleArticle (.exn "Timeout" "boom")).1.failed = 1 ∧
    (scrapeArticle .basic initStats sampleArticle (.exn "Timeout" "boom")).1.success = 0 ∧
    (scrapeArticle .basic initStats sampleArticle (.exn "Timeout" "boom")).1.rss_fallback = 1 ∧
    (scrapeArticle .basic initStats sampleArticle (.exn "Timeout" "boom")).1.low_confidence = 1 ∧
    (scrapeArticle .basic initStats sampleArticle (.exn "Timeout" "boom")).1.failure_reasons
      = ["Timeout"] :=
  ⟨rfl, rfl, rfl, rfl, rfl, rfl, rfl, rfl⟩

/-- C6 counterexample: with an oracle whose first fetch succeeds but
extracts nothing and whose second attempt returns 101 characters, the retry
loop performs a second attempt and returns its result — the empty
extraction result is not final. -/
theorem C6_empty_result_retried_counterexample :
    c6oracle 0 = .ok [] 0 ∧
    (scrapeWithStrategy 3 c6oracle).2.1 = 2 ∧
    (scrapeWithStrategy 3 c6oracle).2.1 ≠ 1 ∧
    (scrapeWithStrategy 3 c6oracle).1.1 = List.replicate 101 'x' :=
  ⟨rfl, rfl, by decide, rfl⟩

/-- C6 amended: an extractor empty-result after a successful fetch is
retried like a fetch failure — the loop re-fetches on every remaining
attempt (up to `max_retries` scraper calls in total) — but without any
backoff sleep; only raised exceptions sleep.  With every attempt returning
empty, all `max_retries` attempts are consumed, no sleep happens, and the
final result is `("", 0.0)`. -/
theorem C6_empty_result_retried (maxRetries : Nat) (oracle : Nat → AttemptResult)
    (h : ∀ n, oracle n = .ok [] 0) :
    scrapeWithStrategy maxRetries oracle = (([], 0), maxRetries, []) := by
  unfold scrapeWithStrategy
  rw [scrapeAttemptsGo_allEmpty oracle maxRetries h maxRetries 0, Nat.zero_add]

/-- Witness for the amended C6 at `max_retries = 2`. -/
theorem C6_empty_result_retried_witness :
    scrapeWithStrategy 2 (fun _ => AttemptResult.ok [] 0) = (([], 0), 2, []) :=
  C6_empty_result_retried 2 _ (fun _ => rfl)

/-- C7: a page with more than 2 article-card elements is classified as a
listing page and `_extract_content` returns `("", 0.0)` immediately,
whatever the rest of the page holds. -/
theorem C7_listing_short_circuit (soup : Soup) (h : 2 < soup.cardCount) :
    extractContent soup = ([], 0) := by
  show (if 2 < soup.cardCount then (([], 0) : Text × ℚ)
    else match scanSelectors soup 0 CONTENT_SELECTORS with
      | some r => r
      | none => fallbackArticlePost soup) = ([], 0)
  rw [if_pos h]

/-- Witness for C7 at a concrete page with 3 article cards and a paragraph
of content. -/
theorem C7_listing_short_circuit_witness : extractContent listingSoup = ([], 0) :=
  C7_listing_short_circuit listingSoup (by decide)

/-- C8: the 0.1 paywall confidence signal is consumed nowhere —
`_extract_content` returns exactly the same pair as the identical cascade
with the paywall-indicator check removed, and its result does not depend on
the paywall flag at all. -/
theorem C8_paywall_signal_unused :
    (∀ soup : Soup, extractContent soup = extractContentNoPaywall soup) ∧
    (∀ (soup : Soup) (b : Bool),
      extractContent { soup with paywalled := b } = extractContent soup) :=
  ⟨fun _ => rfl, fun _ _ => rfl⟩

/-- C9: the text cleanup subroutine `_clean_text` is idempotent. -/
theorem C9_clean_idempotent (t : Text) : cleanText (cleanText t) = cleanText t :=
  cleanText_idem t

set_option maxRecDepth 4000 in
/-- C10: the 100-character gate is evaluated before the final cleanup and
cleanup can only shorten text, so a successful extraction can return
non-empty text of 100 or fewer characters with strictly positive
confidence: cleanup never lengthens, and a concrete well-formed page whose
`#entry-content` text is 102 raw characters (mostly a whitespace run)
succeeds with 3 characters of cleaned text. -/
theorem C10_short_successful_result :
    (∀ t : Text, (cleanText t).length ≤ t.length) ∧
    ∃ soup : Soup, WellFormedSoup soup ∧ (extractContent soup).1 ≠ [] ∧
      (extractContent soup).1.length ≤ 100 ∧ 0 < (extractContent soup).2 := by
  have hsel : spacedSoup.selectorText "#entry-content" = some [spacedSeg] := rfl
  have hscan := scanSelectors_first_hit CONTENT_SELECTORS 0 0 "#entry-content" [spacedSeg]
    rfl hsel (by decide) (fun j hj => absurd hj (Nat.not_lt_zero j))
  have hext : extractContent spacedSoup
      = (cleanText (joinSegs [spacedSeg]), selectorTierConf 0 (joinSegs [spacedSeg])) :=
    extractContent_of_scan (by decide) hscan
  refine ⟨cleanText_length_le, spacedSoup, ?_, ?_, ?_, ?_⟩
  · refine ⟨?_, ?_, ?_, ?_⟩
    · intro sel segs h
      by_cases hs : sel = "#entry-content"
      · subst hs
        have h₂ : some [spacedSeg] = some segs := h
        obtain rfl : segs = [spacedSeg] := by
          injection h₂ with h₃
          exact h₃.symm
        intro w hw
        have hw₂ : w = spacedSeg := List.mem_singleton.mp hw
        subst hw₂
        exact ⟨'a', List.mem_cons_self _ _, rfl⟩
      · have h₂ : (none : Option (List Text)) = some segs := by
          simp only [spacedSoup] at h
          rwa [if_neg hs] at h
        cases h₂
    · intro segs h
      cases h
    · intro p hp
      cases hp
    · intro segs h
      cases h
  · rw [hext]
    exact cleanText_ne_nil ⟨'a', List.mem_cons_self _ _, rfl⟩
  · rw [hext]
    decide
  · rw [hext]
    exact (selectorTierConf_pos (by norm_num) _).1
